import Mathlib

/-!
Verification of `src/Events/Events.ino` (MSP430G2553 switch-debounce example).

Shallow embedding conventions:
* `millis()` is a `Nat` millisecond clock.  C does the subtraction
  `millis() - last_time` on `unsigned long` (32-bit); with monotone `Nat`
  time this equals `(now - last) % 2^32`, which is what `elapsed` computes.
* Each pass of `loop()` ("poll") is modelled with one time sample `now`
  and one sample `pin` of `digitalRead(S2)` (`true` = HIGH).
* `attachInterrupt` reconfiguration is modelled by an `armed` field: a
  physical edge is recorded by the ISR only when its direction is armed.
* Serial output lines are modelled as abstract events (`Ev`).
-/

namespace Events

/-- `#define DEBOUNCE_TIME 50` -/
def DEBOUNCE_TIME : Nat := 50

/-- `#define OFF 0` -/
def OFF : Nat := 0

/-- `#define ON 1` -/
def ON : Nat := 1

/-- `#define SLOW_FLASH 2` -/
def SLOW_FLASH : Nat := 2

/-- `#define FAST_FLASH 3` -/
def FAST_FLASH : Nat := 3

/-- `#define SLOW 1000` -/
def SLOW : Nat := 1000

/-- `#define FAST 250` -/
def FAST : Nat := 250

/-- Modulus of C `unsigned long` (32 bit on this target). -/
def ULMOD : Nat := 4294967296

/-- `millis() - last` computed as C does on `unsigned long`, for monotone
`Nat` time stamps (`last ≤ now`). -/
def elapsed (now last : Nat) : Nat := (now - last) % ULMOD

/-- Which edge direction the single `attachInterrupt` slot currently watches. -/
inductive EdgeDir
| falling
| rising
deriving DecidableEq, Repr

/-- The program's global variables (plus the two LED output latches and the
armed interrupt direction, which live in the hardware in the original). -/
structure Sys where
  last_time : Nat
  fall_count : Nat
  rise_count : Nat
  pressed : Bool
  led : Bool
  flash : Bool
  last_flash : Nat
  flash_time : Nat
  state : Nat
  green : Bool
  red : Bool
  armed : EdgeDir
deriving DecidableEq, Repr

/-- State after `setup()`: counters zero, flags false, `state = OFF`,
`flash_time = 1000`, LEDs low, falling edge armed, timer started at 0. -/
def sysInit : Sys :=
  { last_time := 0, fall_count := 0, rise_count := 0, pressed := false,
    led := false, flash := false, last_flash := 0, flash_time := 1000,
    state := OFF, green := false, red := false, armed := EdgeDir.falling }

/-- ISR `falling()`: `fall_count++; last_time = millis();` -/
def falling (now : Nat) (s : Sys) : Sys :=
  { s with fall_count := s.fall_count + 1, last_time := now }

/-- ISR `rising()`: `rise_count++; last_time = millis();` -/
def rising (now : Nat) (s : Sys) : Sys :=
  { s with rise_count := s.rise_count + 1, last_time := now }

/-- Serial output lines of `loop()`, abstracted. -/
inductive Ev
| pressedReport (count : Nat)
| releasedReport (count : Nat)
| stateLine (st : Nat)
deriving DecidableEq, Repr

/-- First block of `loop()`:
`if (fall_count && ((millis() - last_time) > DEBOUNCE_TIME)) { print count;`
`fall_count = 0; pressed = true; if (!digitalRead(S2)) { attach rising; RED on } }` -/
def fallDispatch (now : Nat) (pin : Bool) (s : Sys) : Sys × List Ev :=
  if s.fall_count ≠ 0 ∧ DEBOUNCE_TIME < elapsed now s.last_time then
    (if pin = false then
       { s with fall_count := 0, pressed := true, armed := EdgeDir.rising, red := true }
     else
       { s with fall_count := 0, pressed := true },
     [Ev.pressedReport s.fall_count])
  else (s, [])

/-- Second block of `loop()`:
`if (rise_count && ((millis() - last_time) > DEBOUNCE_TIME)) { print count;`
`rise_count = 0; if (digitalRead(S2)) { attach falling; RED off } }` -/
def riseDispatch (now : Nat) (pin : Bool) (s : Sys) : Sys × List Ev :=
  if s.rise_count ≠ 0 ∧ DEBOUNCE_TIME < elapsed now s.last_time then
    (if pin = true then
       { s with rise_count := 0, armed := EdgeDir.falling, red := false }
     else
       { s with rise_count := 0 },
     [Ev.releasedReport s.rise_count])
  else (s, [])

/-- Third block of `loop()`: `if (pressed) { pressed = false; switch (state) {...} }`.
A `switch` with no matching case (state outside 0..3) does nothing. -/
def serviceState (s : Sys) : Sys × List Ev :=
  if s.pressed = true then
    match s.state with
    | 0 => ({ s with pressed := false, green := true, state := ON }, [Ev.stateLine ON])
    | 1 => ({ s with
              pressed := false, flash := true, flash_time := SLOW,
              state := SLOW_FLASH }, [Ev.stateLine SLOW_FLASH])
    | 2 => ({ s with
              pressed := false, flash := true, flash_time := FAST,
              state := FAST_FLASH }, [Ev.stateLine FAST_FLASH])
    | 3 => ({ s with
              pressed := false, flash := false, green := false,
              state := OFF }, [Ev.stateLine OFF])
    | _ => ({ s with pressed := false }, [])
  else (s, [])

/-- Last block of `loop()`:
`if (flash && (millis()-last_flash > flash_time)) { led = !led;`
`digitalWrite(GREEN_LED,led); last_flash = millis(); }` -/
def flashService (now : Nat) (s : Sys) : Sys :=
  if s.flash = true ∧ s.flash_time < elapsed now s.last_flash then
    { s with led := !s.led, green := !s.led, last_flash := now }
  else s

/-- One full pass of `loop()`, returning the new state and the serial
output of that pass in order. -/
def loopStep (now : Nat) (pin : Bool) (s : Sys) : Sys × List Ev :=
  let r1 := fallDispatch now pin s
  let r2 := riseDispatch now pin r1.1
  let r3 := serviceState r2.1
  (flashService now r3.1, r1.2 ++ (r2.2 ++ r3.2))

/-- Environment actions: a physical falling or rising transition on S2 at
time `t`, or one pass of `loop()` at time `t` with pin level `pin`. -/
inductive Act
| fallEdge (t : Nat)
| riseEdge (t : Nat)
| poll (t : Nat) (pin : Bool)
deriving DecidableEq, Repr

def timeOf : Act → Nat
| Act.fallEdge t => t
| Act.riseEdge t => t
| Act.poll t _ => t

/-- Observations of a run: serial reports (with the poll time) and edges
that were actually recorded by an armed ISR. -/
inductive Obs
| rep (t : Nat) (e : Ev)
| rcd (d : EdgeDir) (t : Nat)
deriving DecidableEq, Repr

/-- Semantics of one action.  A physical edge triggers the ISR only when
its direction is the armed one (`attachInterrupt` watches one direction). -/
def doAct (a : Act) (s : Sys) : Sys × List Obs :=
  match a with
  | Act.fallEdge t =>
      if s.armed = EdgeDir.falling then (falling t s, [Obs.rcd EdgeDir.falling t])
      else (s, [])
  | Act.riseEdge t =>
      if s.armed = EdgeDir.rising then (rising t s, [Obs.rcd EdgeDir.rising t])
      else (s, [])
  | Act.poll t pin =>
      let r := loopStep t pin s
      (r.1, r.2.map (fun e => Obs.rep t e))

/-- Run a list of actions, collecting observations in order. -/
def runO : List Act → Sys → Sys × List Obs
| [], s => (s, [])
| a :: as, s =>
    let r1 := doAct a s
    let r2 := runO as r1.1
    (r2.1, r1.2 ++ r2.2)

/-- State reached from `sysInit` by a list of actions. -/
def reach (as : List Act) : Sys := (runO as sysInit).1

/-- Times in the action list are nondecreasing and all at least `t0`. -/
def monoFrom : Nat → List Act → Bool
| _, [] => true
| t0, a :: as => decide (t0 ≤ timeOf a) && monoFrom (timeOf a) as

/-- Last action time (or `t0` for the empty list). -/
def endTime : Nat → List Act → Nat
| t0, [] => t0
| _, a :: as => endTime (timeOf a) as

def isFallEdge : Act → Bool
| Act.fallEdge _ => true
| _ => false

def isRiseEdge : Act → Bool
| Act.riseEdge _ => true
| _ => false

def isPressEv : Ev → Bool
| Ev.pressedReport _ => true
| _ => false

def isPressObs : Obs → Bool
| Obs.rep _ (Ev.pressedReport _) => true
| _ => false

/-- Time of the most recently recorded edge of direction `d`, folded over
observations starting from `init`. -/
def lastRecFrom (d : EdgeDir) (init : Option Nat) (obs : List Obs) : Option Nat :=
  obs.foldl
    (fun acc o =>
      match o with
      | Obs.rcd e u => if e = d then some u else acc
      | _ => acc)
    init

/-- Time of the most recently recorded edge of direction `d`. -/
def lastRecTime (d : EdgeDir) (obs : List Obs) : Option Nat :=
  lastRecFrom d none obs

/-- One application of the state machine to a Pressed event (the `pressed`
flag is set by the dispatch block and consumed by `serviceState`). -/
def press (s : Sys) : Sys := (serviceState { s with pressed := true }).1

/-- `N` consecutive Pressed events. -/
def pressN : Nat → Sys → Sys
| 0, s => s
| n + 1, s => pressN n (press s)

/-- Successor in the fixed cycle Off, On, SlowFlash, FastFlash, Off. -/
def nextState : Nat → Nat
| 0 => 1
| 1 => 2
| 2 => 3
| 3 => 0
| st => st

/-- `n`-th successor in the fixed cycle. -/
def succN : Nat → Nat → Nat
| 0, st => st
| n + 1, st => succN n (nextState st)

/-! ### Fine-grained model of the falling read-and-reset block (claim C2)

The block `if (fall_count && cond) { println(fall_count); fall_count = 0; ... }`
is split into its individual accesses to the volatile `fall_count`, so the
ISR can be interleaved between any two of them.  `pc` tracks progress:
0 = before the condition, 1 = condition held, 2 = count printed (the read),
3 = count reset, 4 = condition failed. -/

structure MState where
  fc : Nat
  last_time : Nat
  pc : Nat
  reported : List Nat
  injected : Nat
deriving DecidableEq, Repr

inductive MOp
| isr (t : Nat)
| cond (t : Nat)
| printC
| reset
deriving DecidableEq, Repr

/-- One micro step: the ISR (`fall_count++; last_time = millis();`, with a
ghost counter of invocations), the condition test, the `println` read of
`fall_count`, or the `fall_count = 0` store. -/
def mstep (o : MOp) (m : MState) : MState :=
  match o with
  | MOp.isr t =>
      { m with fc := m.fc + 1, last_time := t, injected := m.injected + 1 }
  | MOp.cond t =>
      if m.pc = 0 then
        { m with pc := if m.fc ≠ 0 ∧ DEBOUNCE_TIME < elapsed t m.last_time then 1 else 4 }
      else m
  | MOp.printC =>
      if m.pc = 1 then { m with reported := m.reported ++ [m.fc], pc := 2 } else m
  | MOp.reset =>
      if m.pc = 2 then { m with fc := 0, pc := 3 } else m

def mrun : List MOp → MState → MState
| [], m => m
| o :: os, m => mrun os (mstep o m)

def mInit : MState :=
  { fc := 0, last_time := 0, pc := 0, reported := [], injected := 0 }

/-- Number of ISR invocations in a schedule. -/
def countIsr : List MOp → Nat
| [] => 0
| MOp.isr _ :: os => countIsr os + 1
| _ :: os => countIsr os

/-- `true` when no ISR fires between the read of `fall_count` (the print)
and its reset — the window `pc = 2`. -/
def noIsrAtRead : List MOp → MState → Bool
| [], _ => true
| o :: os, m =>
    (match o with
     | MOp.isr _ => decide (m.pc ≠ 2)
     | _ => true) && noIsrAtRead os (mstep o m)

/-- Edge-count balance: reported counts plus the pending counter (which is
dead between read and reset). -/
def bal (m : MState) : Nat :=
  m.reported.sum + (if m.pc = 2 then 0 else m.fc)

/-! ### Concrete traces for the claims' scenarios -/

/-- Scenario of claim C9: falling edges at t = 0, 5, 10, 12 ms, a poll at
every millisecond, pin held LOW (switch pressed). -/
def c9Step (t : Nat) : List Act :=
  (if t = 0 ∨ t = 5 ∨ t = 10 ∨ t = 12 then [Act.fallEdge t] else []) ++
    [Act.poll t false]

def c9ActsUpTo : Nat → List Act
| 0 => c9Step 0
| n + 1 => c9ActsUpTo n ++ c9Step (n + 1)

def c9Acts : List Act := c9ActsUpTo 70

/-- A state with one settled falling edge, used as a concrete sample. -/
def sampleFall : Sys := { sysInit with fall_count := 1 }

/-- A state in `OFF` with `flash` spuriously set, used as a concrete sample. -/
def sampleOffFlash : Sys := { sysInit with flash := true }

/-- The flash flag is on exactly in the two flashing states. -/
def flashInv (s : Sys) : Prop :=
  s.flash = true ↔ (s.state = SLOW_FLASH ∨ s.state = FAST_FLASH)

/-! ## Frame lemmas: which globals each block of `loop()` leaves unchanged -/

@[simp] theorem fallDispatch_last_time (now : Nat) (pin : Bool) (s : Sys) :
    ((fallDispatch now pin s).1).last_time = s.last_time := by
  simp only [fallDispatch]; split
  · split <;> rfl
  · rfl

@[simp] theorem fallDispatch_rise_count (now : Nat) (pin : Bool) (s : Sys) :
    ((fallDispatch now pin s).1).rise_count = s.rise_count := by
  simp only [fallDispatch]; split
  · split <;> rfl
  · rfl

@[simp] theorem fallDispatch_flash (now : Nat) (pin : Bool) (s : Sys) :
    ((fallDispatch now pin s).1).flash = s.flash := by
  simp only [fallDispatch]; split
  · split <;> rfl
  · rfl

@[simp] theorem fallDispatch_state (now : Nat) (pin : Bool) (s : Sys) :
    ((fallDispatch now pin s).1).state = s.state := by
  simp only [fallDispatch]; split
  · split <;> rfl
  · rfl

@[simp] theorem fallDispatch_led (now : Nat) (pin : Bool) (s : Sys) :
    ((fallDispatch now pin s).1).led = s.led := by
  simp only [fallDispatch]; split
  · split <;> rfl
  · rfl

@[simp] theorem fallDispatch_last_flash (now : Nat) (pin : Bool) (s : Sys) :
    ((fallDispatch now pin s).1).last_flash = s.last_flash := by
  simp only [fallDispatch]; split
  · split <;> rfl
  · rfl

@[simp] theorem fallDispatch_flash_time (now : Nat) (pin : Bool) (s : Sys) :
    ((fallDispatch now pin s).1).flash_time = s.flash_time := by
  simp only [fallDispatch]; split
  · split <;> rfl
  · rfl

@[simp] theorem riseDispatch_last_time (now : Nat) (pin : Bool) (s : Sys) :
    ((riseDispatch now pin s).1).last_time = s.last_time := by
  simp only [riseDispatch]; split
  · split <;> rfl
  · rfl

@[simp] theorem riseDispatch_fall_count (now : Nat) (pin : Bool) (s : Sys) :
    ((riseDispatch now pin s).1).fall_count = s.fall_count := by
  simp only [riseDispatch]; split
  · split <;> rfl
  · rfl

@[simp] theorem riseDispatch_pressed (now : Nat) (pin : Bool) (s : Sys) :
    ((riseDispatch now pin s).1).pressed = s.pressed := by
  simp only [riseDispatch]; split
  · split <;> rfl
  · rfl

@[simp] theorem riseDispatch_flash (now : Nat) (pin : Bool) (s : Sys) :
    ((riseDispatch now pin s).1).flash = s.flash := by
  simp only [riseDispatch]; split
  · split <;> rfl
  · rfl

@[simp] theorem riseDispatch_state (now : Nat) (pin : Bool) (s : Sys) :
    ((riseDispatch now pin s).1).state = s.state := by
  simp only [riseDispatch]; split
  · split <;> rfl
  · rfl

@[simp] theorem riseDispatch_led (now : Nat) (pin : Bool) (s : Sys) :
    ((riseDispatch now pin s).1).led = s.led := by
  simp only [riseDispatch]; split
  · split <;> rfl
  · rfl

@[simp] theorem riseDispatch_last_flash (now : Nat) (pin : Bool) (s : Sys) :
    ((riseDispatch now pin s).1).last_flash = s.last_flash := by
  simp only [riseDispatch]; split
  · split <;> rfl
  · rfl

@[simp] theorem riseDispatch_flash_time (now : Nat) (pin : Bool) (s : Sys) :
    ((riseDispatch now pin s).1).flash_time = s.flash_time := by
  simp only [riseDispatch]; split
  · split <;> rfl
  · rfl

@[simp] theorem serviceState_last_time (s : Sys) :
    ((serviceState s).1).last_time = s.last_time := by
  simp only [serviceState]; split
  · split <;> rfl
  · rfl

@[simp] theorem serviceState_fall_count (s : Sys) :
    ((serviceState s).1).fall_count = s.fall_count := by
  simp only [serviceState]; split
  · split <;> rfl
  · rfl

@[simp] theorem serviceState_rise_count (s : Sys) :
    ((serviceState s).1).rise_count = s.rise_count := by
  simp only [serviceState]; split
  · split <;> rfl
  · rfl

@[simp] theorem serviceState_armed (s : Sys) :
    ((serviceState s).1).armed = s.armed := by
  simp only [serviceState]; split
  · split <;> rfl
  · rfl

@[simp] theorem serviceState_red (s : Sys) :
    ((serviceState s).1).red = s.red := by
  simp only [serviceState]; split
  · split <;> rfl
  · rfl

@[simp] theorem serviceState_led (s : Sys) :
    ((serviceState s).1).led = s.led := by
  simp only [serviceState]; split
  · split <;> rfl
  · rfl

@[simp] theorem serviceState_last_flash (s : Sys) :
    ((serviceState s).1).last_flash = s.last_flash := by
  simp only [serviceState]; split
  · split <;> rfl
  · rfl

@[simp] theorem flashService_last_time (now : Nat) (s : Sys) :
    (flashService now s).last_time = s.last_time := by
  simp only [flashService]; split <;> rfl

@[simp] theorem flashService_fall_count (now : Nat) (s : Sys) :
    (flashService now s).fall_count = s.fall_count := by
  simp only [flashService]; split <;> rfl

@[simp] theorem flashService_rise_count (now : Nat) (s : Sys) :
    (flashService now s).rise_count = s.rise_count := by
  simp only [flashService]; split <;> rfl

@[simp] theorem flashService_pressed (now : Nat) (s : Sys) :
    (flashService now s).pressed = s.pressed := by
  simp only [flashService]; split <;> rfl

@[simp] theorem flashService_armed (now : Nat) (s : Sys) :
    (flashService now s).armed = s.armed := by
  simp only [flashService]; split <;> rfl

@[simp] theorem flashService_red (now : Nat) (s : Sys) :
    (flashService now s).red = s.red := by
  simp only [flashService]; split <;> rfl

@[simp] theorem flashService_flash (now : Nat) (s : Sys) :
    (flashService now s).flash = s.flash := by
  simp only [flashService]; split <;> rfl

@[simp] theorem flashService_state (now : Nat) (s : Sys) :
    (flashService now s).state = s.state := by
  simp only [flashService]; split <;> rfl

@[simp] theorem flashService_flash_time (now : Nat) (s : Sys) :
    (flashService now s).flash_time = s.flash_time := by
  simp only [flashService]; split <;> rfl

/-! ## Shape lemmas for the two dispatch blocks -/

theorem fallDispatch_fc (now : Nat) (pin : Bool) (s : Sys) :
    ((fallDispatch now pin s).1).fall_count =
      if s.fall_count ≠ 0 ∧ DEBOUNCE_TIME < elapsed now s.last_time then 0
      else s.fall_count := by
  by_cases h : s.fall_count ≠ 0 ∧ DEBOUNCE_TIME < elapsed now s.last_time
  · simp only [fallDispatch, if_pos h]; split <;> rfl
  · simp only [fallDispatch, if_neg h]

theorem fallDispatch_events (now : Nat) (pin : Bool) (s : Sys) :
    (fallDispatch now pin s).2 =
      if s.fall_count ≠ 0 ∧ DEBOUNCE_TIME < elapsed now s.last_time then
        [Ev.pressedReport s.fall_count]
      else [] := by
  by_cases h : s.fall_count ≠ 0 ∧ DEBOUNCE_TIME < elapsed now s.last_time
  · simp only [fallDispatch, if_pos h]
  · simp only [fallDispatch, if_neg h]

theorem fallDispatch_pressed (now : Nat) (pin : Bool) (s : Sys) :
    ((fallDispatch now pin s).1).pressed =
      if s.fall_count ≠ 0 ∧ DEBOUNCE_TIME < elapsed now s.last_time then true
      else s.pressed := by
  by_cases h : s.fall_count ≠ 0 ∧ DEBOUNCE_TIME < elapsed now s.last_time
  · simp only [fallDispatch, if_pos h]; split <;> rfl
  · simp only [fallDispatch, if_neg h]

theorem riseDispatch_rc (now : Nat) (pin : Bool) (s : Sys) :
    ((riseDispatch now pin s).1).rise_count =
      if s.rise_count ≠ 0 ∧ DEBOUNCE_TIME < elapsed now s.last_time then 0
      else s.rise_count := by
  by_cases h : s.rise_count ≠ 0 ∧ DEBOUNCE_TIME < elapsed now s.last_time
  · simp only [riseDispatch, if_pos h]; split <;> rfl
  · simp only [riseDispatch, if_neg h]

theorem riseDispatch_events (now : Nat) (pin : Bool) (s : Sys) :
    (riseDispatch now pin s).2 =
      if s.rise_count ≠ 0 ∧ DEBOUNCE_TIME < elapsed now s.last_time then
        [Ev.releasedReport s.rise_count]
      else [] := by
  by_cases h : s.rise_count ≠ 0 ∧ DEBOUNCE_TIME < elapsed now s.last_time
  · simp only [riseDispatch, if_pos h]
  · simp only [riseDispatch, if_neg h]

theorem riseDispatch_no_press (now : Nat) (pin : Bool) (s : Sys) :
    ((riseDispatch now pin s).2).filter isPressEv = [] := by
  rw [riseDispatch_events]; split <;> rfl

theorem serviceState_no_press (s : Sys) :
    ((serviceState s).2).filter isPressEv = [] := by
  simp only [serviceState]; split
  · split <;> rfl
  · rfl

theorem loopStep_events (now : Nat) (pin : Bool) (s : Sys) :
    (loopStep now pin s).2 =
      (fallDispatch now pin s).2 ++
        ((riseDispatch now pin (fallDispatch now pin s).1).2 ++
          (serviceState (riseDispatch now pin (fallDispatch now pin s).1).1).2) := rfl

theorem loopStep_fall_count (now : Nat) (pin : Bool) (s : Sys) :
    ((loopStep now pin s).1).fall_count =
      if s.fall_count ≠ 0 ∧ DEBOUNCE_TIME < elapsed now s.last_time then 0
      else s.fall_count := by
  simp only [loopStep, flashService_fall_count, serviceState_fall_count,
    riseDispatch_fall_count, fallDispatch_fc]

theorem loopStep_last_time (now : Nat) (pin : Bool) (s : Sys) :
    ((loopStep now pin s).1).last_time = s.last_time := by
  simp only [loopStep, flashService_last_time, serviceState_last_time,
    riseDispatch_last_time, fallDispatch_last_time]

/-! ## Case lemmas for the state machine block -/

theorem serviceState_not_pressed (s : Sys) (hp : ¬s.pressed = true) :
    serviceState s = (s, []) := by
  simp only [serviceState, if_neg hp]

theorem serviceState_state0 (s : Sys) (hp : s.pressed = true) (h : s.state = 0) :
    serviceState s =
      ({ s with pressed := false, green := true, state := ON }, [Ev.stateLine ON]) := by
  simp only [serviceState, if_pos hp]
  rw [h]

theorem serviceState_state1 (s : Sys) (hp : s.pressed = true) (h : s.state = 1) :
    serviceState s =
      ({ s with
         pressed := false, flash := true, flash_time := SLOW,
         state := SLOW_FLASH }, [Ev.stateLine SLOW_FLASH]) := by
  simp only [serviceState, if_pos hp]
  rw [h]

theorem serviceState_state2 (s : Sys) (hp : s.pressed = true) (h : s.state = 2) :
    serviceState s =
      ({ s with
         pressed := false, flash := true, flash_time := FAST,
         state := FAST_FLASH }, [Ev.stateLine FAST_FLASH]) := by
  simp only [serviceState, if_pos hp]
  rw [h]

theorem serviceState_state3 (s : Sys) (hp : s.pressed = true) (h : s.state = 3) :
    serviceState s =
      ({ s with
         pressed := false, flash := false, green := false,
         state := OFF }, [Ev.stateLine OFF]) := by
  simp only [serviceState, if_pos hp]
  rw [h]

theorem serviceState_state_big (s : Sys) (hp : s.pressed = true) (h : 4 ≤ s.state) :
    serviceState s = ({ s with pressed := false }, []) := by
  obtain ⟨m, hm⟩ : ∃ m, s.state = m + 4 := ⟨s.state - 4, by omega⟩
  simp only [serviceState, if_pos hp]
  rw [hm]
  rfl

/-! ## Preservation of the flash/state invariant -/

theorem flashInv_serviceState (s : Sys) (h : flashInv s) :
    flashInv ((serviceState s).1) := by
  by_cases hp : s.pressed = true
  · have hc : s.state = 0 ∨ s.state = 1 ∨ s.state = 2 ∨ s.state = 3 ∨ 4 ≤ s.state := by
      omega
    rcases hc with h0 | h1 | h2 | h3 | h4
    · rw [serviceState_state0 s hp h0]
      simp only [flashInv, ON, SLOW_FLASH, FAST_FLASH] at h ⊢
      rw [h0] at h
      simp_all
    · rw [serviceState_state1 s hp h1]
      simp [flashInv, SLOW_FLASH, FAST_FLASH]
    · rw [serviceState_state2 s hp h2]
      simp [flashInv, SLOW_FLASH, FAST_FLASH]
    · rw [serviceState_state3 s hp h3]
      simp [flashInv, OFF, SLOW_FLASH, FAST_FLASH]
    · rw [serviceState_state_big s hp h4]
      exact h
  · rw [serviceState_not_pressed s hp]
    exact h

theorem flashInv_loopStep (now : Nat) (pin : Bool) (s : Sys) (h : flashInv s) :
    flashInv ((loopStep now pin s).1) := by
  have h2 : flashInv ((riseDispatch now pin (fallDispatch now pin s).1).1) := by
    simp only [flashInv, riseDispatch_flash, riseDispatch_state,
      fallDispatch_flash, fallDispatch_state]
    exact h
  have h3 := flashInv_serviceState _ h2
  simp only [loopStep, flashInv, flashService_flash, flashService_state]
  exact h3

theorem flashInv_doAct (a : Act) (s : Sys) (h : flashInv s) :
    flashInv ((doAct a s).1) := by
  cases a with
  | fallEdge t =>
      simp only [doAct]
      split
      · exact h
      · exact h
  | riseEdge t =>
      simp only [doAct]
      split
      · exact h
      · exact h
  | poll t pin => exact flashInv_loopStep t pin s h

theorem flashInv_runO (as : List Act) (s : Sys) (h : flashInv s) :
    flashInv ((runO as s).1) := by
  induction as generalizing s with
  | nil => exact h
  | cons a as ih => exact ih _ (flashInv_doAct a s h)

theorem flashInv_reach (as : List Act) : flashInv (reach as) :=
  flashInv_runO as sysInit (by simp [flashInv, sysInit, SLOW_FLASH, FAST_FLASH, OFF])

theorem flashService_of_off (now : Nat) (s : Sys) (h : s.flash = false) :
    flashService now s = s := by
  simp only [flashService]
  rw [if_neg]
  simp [h]

/-! ## Claims C1, C8, C10: the dispatch and flash blocks in one poll -/

/-- Claim C1: in a poll where `fall_count` is non-zero and
(now − last_time) exceeds DEBOUNCE_TIME, the loop emits exactly one
Pressed event — it reports the count, sets the `pressed` flag and resets
`fall_count` to 0; when either conjunct fails, no Pressed event is emitted
and the count is unchanged. -/
theorem c1_settle_pressed_dispatch (now : Nat) (pin : Bool) (s : Sys) :
    (s.fall_count ≠ 0 ∧ DEBOUNCE_TIME < elapsed now s.last_time →
      (fallDispatch now pin s).2 = [Ev.pressedReport s.fall_count] ∧
      ((fallDispatch now pin s).1).pressed = true ∧
      ((fallDispatch now pin s).1).fall_count = 0 ∧
      ((loopStep now pin s).2).filter isPressEv = [Ev.pressedReport s.fall_count] ∧
      ((loopStep now pin s).1).fall_count = 0) ∧
    (¬(s.fall_count ≠ 0 ∧ DEBOUNCE_TIME < elapsed now s.last_time) →
      fallDispatch now pin s = (s, []) ∧
      ((loopStep now pin s).2).filter isPressEv = [] ∧
      ((loopStep now pin s).1).fall_count = s.fall_count) := by
  by_cases h : s.fall_count ≠ 0 ∧ DEBOUNCE_TIME < elapsed now s.last_time
  · refine ⟨fun _ => ⟨?_, ?_, ?_, ?_, ?_⟩, fun hn => absurd h hn⟩
    · rw [fallDispatch_events, if_pos h]
    · rw [fallDispatch_pressed, if_pos h]
    · rw [fallDispatch_fc, if_pos h]
    · rw [loopStep_events]
      simp [List.filter_append, riseDispatch_no_press, serviceState_no_press,
        fallDispatch_events, if_pos h, isPressEv]
    · rw [loopStep_fall_count, if_pos h]
  · refine ⟨fun hc => absurd hc h, fun _ => ⟨?_, ?_, ?_⟩⟩
    · simp only [fallDispatch, if_neg h]
    · rw [loopStep_events]
      simp [List.filter_append, riseDispatch_no_press, serviceState_no_press,
        fallDispatch_events, if_neg h]
    · rw [loopStep_fall_count, if_neg h]

theorem c1_settle_pressed_dispatch_witness :
    (({ sysInit with fall_count := 3 } : Sys).fall_count ≠ 0 ∧
      DEBOUNCE_TIME < elapsed 60 ({ sysInit with fall_count := 3 } : Sys).last_time) ∧
    (fallDispatch 60 true { sysInit with fall_count := 3 }).2 =
      [Ev.pressedReport ({ sysInit with fall_count := 3 } : Sys).fall_count] :=
  ⟨⟨by decide, by decide⟩,
    ((c1_settle_pressed_dispatch 60 true { sysInit with fall_count := 3 }).1
      ⟨by decide, by decide⟩).1⟩

/-- Claim C8: the flash service toggles the output level and updates the
last toggle time exactly when flash is enabled and
(now − last_flash) > flash_time; otherwise all globals are unchanged. -/
theorem c8_tick_flash (now : Nat) (s : Sys) :
    (s.flash = true ∧ s.flash_time < elapsed now s.last_flash →
      flashService now s =
        { s with led := !s.led, green := !s.led, last_flash := now }) ∧
    (¬(s.flash = true ∧ s.flash_time < elapsed now s.last_flash) →
      flashService now s = s) := by
  constructor
  · intro h
    simp only [flashService, if_pos h]
  · intro h
    simp only [flashService, if_neg h]

theorem c8_tick_flash_witness :
    (({ sysInit with flash := true } : Sys).flash = true ∧
      ({ sysInit with flash := true } : Sys).flash_time <
        elapsed 2000 ({ sysInit with flash := true } : Sys).last_flash) ∧
    flashService 2000 { sysInit with flash := true } =
      { ({ sysInit with flash := true } : Sys) with
        led := !({ sysInit with flash := true } : Sys).led,
        green := !({ sysInit with flash := true } : Sys).led,
        last_flash := 2000 } :=
  ⟨⟨rfl, by decide⟩,
    (c8_tick_flash 2000 { sysInit with flash := true }).1 ⟨rfl, by decide⟩⟩

/-- Claim C10: when the press settle condition fires but `digitalRead(S2)`
re-reads HIGH, the Pressed event is still emitted and the falling count
still reset, while the armed interrupt direction and the red LED are left
unchanged; symmetrically for the release path when the pin re-reads LOW. -/
theorem c10_reread_guard (now : Nat) (s : Sys) :
    (s.fall_count ≠ 0 ∧ DEBOUNCE_TIME < elapsed now s.last_time →
      (fallDispatch now true s).2 = [Ev.pressedReport s.fall_count] ∧
      ((fallDispatch now true s).1).fall_count = 0 ∧
      ((fallDispatch now true s).1).pressed = true ∧
      ((fallDispatch now true s).1).armed = s.armed ∧
      ((fallDispatch now true s).1).red = s.red) ∧
    (s.rise_count ≠ 0 ∧ DEBOUNCE_TIME < elapsed now s.last_time →
      (riseDispatch now false s).2 = [Ev.releasedReport s.rise_count] ∧
      ((riseDispatch now false s).1).rise_count = 0 ∧
      ((riseDispatch now false s).1).armed = s.armed ∧
      ((riseDispatch now false s).1).red = s.red) := by
  constructor
  · intro h
    have hd : fallDispatch now true s =
        ({ s with fall_count := 0, pressed := true }, [Ev.pressedReport s.fall_count]) := by
      unfold fallDispatch
      rw [if_pos h]
      rfl
    rw [hd]
    exact ⟨rfl, rfl, rfl, rfl, rfl⟩
  · intro h
    have hd : riseDispatch now false s =
        ({ s with rise_count := 0 }, [Ev.releasedReport s.rise_count]) := by
      unfold riseDispatch
      rw [if_pos h]
      rfl
    rw [hd]
    exact ⟨rfl, rfl, rfl, rfl⟩

theorem c10_reread_guard_witness :
    (fallDispatch 60 true { sysInit with fall_count := 2, rise_count := 1 }).2 =
      [Ev.pressedReport ({ sysInit with fall_count := 2, rise_count := 1 } : Sys).fall_count] ∧
    ((fallDispatch 60 true { sysInit with fall_count := 2, rise_count := 1 }).1).armed =
      ({ sysInit with fall_count := 2, rise_count := 1 } : Sys).armed ∧
    (riseDispatch 60 false { sysInit with fall_count := 2, rise_count := 1 }).2 =
      [Ev.releasedReport ({ sysInit with fall_count := 2, rise_count := 1 } : Sys).rise_count] :=
  ⟨((c10_reread_guard 60 { sysInit with fall_count := 2, rise_count := 1 }).1
      ⟨by decide, by decide⟩).1,
   ((c10_reread_guard 60 { sysInit with fall_count := 2, rise_count := 1 }).1
      ⟨by decide, by decide⟩).2.2.2.1,
   ((c10_reread_guard 60 { sysInit with fall_count := 2, rise_count := 1 }).2
      ⟨by decide, by decide⟩).1⟩

/-! ## Claims C6 and C7: the state machine's flash discipline -/

/-- Claim C6 counterexample: the code's `case OFF` branch does not write
the flash flag, so from an Off configuration whose flash flag is `true`
a Pressed event moves to On with flash still `true` — refuting "flash
flag set to false for every value it may hold beforehand". -/
theorem c6_counterexample :
    sampleOffFlash.state = OFF ∧ sampleOffFlash.flash = true ∧
    (press sampleOffFlash).state = ON ∧ (press sampleOffFlash).flash = true :=
  ⟨rfl, rfl, rfl, rfl⟩

/-- Claim C6 (amended): on a Pressed event in Off the machine moves to On
and turns the steady green output on; the flash flag is left unchanged
rather than written, and in every reachable Off configuration it is
already false, so flash remains disabled on entry to On. -/
theorem c6_off_to_on (s : Sys) (as : List Act) :
    (s.state = OFF →
      (press s).state = ON ∧ (press s).green = true ∧ (press s).flash = s.flash) ∧
    ((reach as).state = OFF →
      (reach as).flash = false ∧ (press (reach as)).flash = false) := by
  constructor
  · intro hs
    have h0 : ({ s with pressed := true } : Sys).state = 0 := hs
    rw [press, serviceState_state0 _ rfl h0]
    exact ⟨rfl, rfl, rfl⟩
  · intro hs
    have h := flashInv_reach as
    have hf : (reach as).flash = false := by
      cases hfl : (reach as).flash with
      | false => rfl
      | true =>
          rcases h.mp hfl with h2 | h2 <;> rw [hs] at h2 <;>
            simp [OFF, SLOW_FLASH, FAST_FLASH] at h2
    refine ⟨hf, ?_⟩
    have h0 : ({ reach as with pressed := true } : Sys).state = 0 := hs
    rw [press, serviceState_state0 _ rfl h0]
    exact hf

theorem c6_off_to_on_witness :
    sysInit.state = OFF ∧ (press sysInit).state = ON ∧
    (press sysInit).green = true ∧ (press sysInit).flash = sysInit.flash :=
  ⟨rfl, ((c6_off_to_on sysInit []).1 rfl).1, ((c6_off_to_on sysInit []).1 rfl).2.1,
    ((c6_off_to_on sysInit []).1 rfl).2.2⟩

/-- Claim C7: starting from the initial configuration, after any sequence
of actions the flash flag is enabled iff the state is SlowFlash or
FastFlash; consequently the flash block never toggles anything while the
state is Off or On, and toggling stops immediately upon the Pressed
transition out of FastFlash. -/
theorem c7_flash_iff_flashing (as : List Act) :
    ((reach as).flash = true ↔
      ((reach as).state = SLOW_FLASH ∨ (reach as).state = FAST_FLASH)) ∧
    (((reach as).state = OFF ∨ (reach as).state = ON) →
      ∀ now, flashService now (reach as) = reach as) ∧
    ((reach as).state = FAST_FLASH →
      ∀ now, flashService now (press (reach as)) = press (reach as)) := by
  have h := flashInv_reach as
  refine ⟨h, ?_, ?_⟩
  · intro hs now
    apply flashService_of_off
    have hn : ¬((reach as).state = SLOW_FLASH ∨ (reach as).state = FAST_FLASH) := by
      rcases hs with h0 | h0 <;> rw [h0] <;> decide
    cases hfl : (reach as).flash with
    | false => rfl
    | true => exact absurd (h.mp hfl) hn
  · intro hs now
    apply flashService_of_off
    have h3 : ({ reach as with pressed := true } : Sys).state = 3 := hs
    rw [press, serviceState_state3 _ rfl h3]

theorem c7_flash_iff_flashing_witness :
    ((reach []).state = OFF ∨ (reach []).state = ON) ∧
    flashService 5000 (reach []) = reach [] :=
  ⟨Or.inl rfl, (c7_flash_iff_flashing []).2.1 (Or.inl rfl) 5000⟩

/-! ## Claim C4: the four-state cycle -/

theorem nextState_lt (st : Nat) (h : st < 4) : nextState st < 4 := by
  have hc : st = 0 ∨ st = 1 ∨ st = 2 ∨ st = 3 := by omega
  rcases hc with h0 | h0 | h0 | h0 <;> subst h0 <;> decide

theorem press_of_state0 (s : Sys) (h : s.state = 0) :
    (press s).state = ON ∧ (press s).flash = s.flash ∧ (press s).green = true := by
  rw [press, serviceState_state0 { s with pressed := true } rfl h]
  exact ⟨rfl, rfl, rfl⟩

theorem press_of_state1 (s : Sys) (h : s.state = 1) :
    (press s).state = SLOW_FLASH ∧ (press s).flash = true ∧ (press s).green = s.green := by
  rw [press, serviceState_state1 { s with pressed := true } rfl h]
  exact ⟨rfl, rfl, rfl⟩

theorem press_of_state2 (s : Sys) (h : s.state = 2) :
    (press s).state = FAST_FLASH ∧ (press s).flash = true ∧ (press s).green = s.green := by
  rw [press, serviceState_state2 { s with pressed := true } rfl h]
  exact ⟨rfl, rfl, rfl⟩

theorem press_of_state3 (s : Sys) (h : s.state = 3) :
    (press s).state = OFF ∧ (press s).flash = false ∧ (press s).green = false := by
  rw [press, serviceState_state3 { s with pressed := true } rfl h]
  exact ⟨rfl, rfl, rfl⟩

theorem press_state (s : Sys) (h : s.state < 4) :
    (press s).state = nextState s.state := by
  have hc : s.state = 0 ∨ s.state = 1 ∨ s.state = 2 ∨ s.state = 3 := by omega
  rcases hc with h0 | h0 | h0 | h0
  · rw [(press_of_state0 s h0).1, h0]
    rfl
  · rw [(press_of_state1 s h0).1, h0]
    rfl
  · rw [(press_of_state2 s h0).1, h0]
    rfl
  · rw [(press_of_state3 s h0).1, h0]
    rfl

theorem press_state_lt (s : Sys) (h : s.state < 4) : (press s).state < 4 := by
  rw [press_state s h]
  exact nextState_lt _ h

theorem pressN_state (N : Nat) (s : Sys) (h : s.state < 4) :
    (pressN N s).state = succN N s.state := by
  induction N generalizing s with
  | zero => rfl
  | succ n ih =>
      show (pressN n (press s)).state = succN (n + 1) s.state
      rw [ih (press s) (press_state_lt s h), press_state s h]
      rfl

theorem succN_add (a b st : Nat) : succN (a + b) st = succN b (succN a st) := by
  induction a generalizing st with
  | zero =>
      rw [Nat.zero_add]
      rfl
  | succ n ih =>
      rw [Nat.succ_add]
      show succN (n + b) (nextState st) = succN b (succN (n + 1) st)
      rw [ih (nextState st)]
      rfl

theorem succN_four (st : Nat) (h : st < 4) : succN 4 st = st := by
  have hc : st = 0 ∨ st = 1 ∨ st = 2 ∨ st = 3 := by omega
  rcases hc with h0 | h0 | h0 | h0 <;> subst h0 <;> rfl

theorem succN_four_mul (k st : Nat) (h : st < 4) : succN (4 * k) st = st := by
  induction k with
  | zero => rfl
  | succ n ih => rw [Nat.mul_succ, succN_add, ih, succN_four st h]

theorem succN_mod (N st : Nat) (h : st < 4) : succN N st = succN (N % 4) st := by
  conv_lhs => rw [← Nat.div_add_mod N 4]
  rw [succN_add, succN_four_mul _ st h]

/-- Claim C4: for any starting state in the four-state cycle and any number
N of Pressed events, the resulting state is the (N mod 4)-th successor of
the start in the cycle Off, On, SlowFlash, FastFlash; in particular four
Pressed events from Off return exactly to Off with the flash disabled and
the green output low. -/
theorem c4_cycle_mod4 (s : Sys) (N : Nat) :
    (s.state < 4 → (pressN N s).state = succN (N % 4) s.state) ∧
    (s.state = OFF →
      (pressN 4 s).state = OFF ∧ (pressN 4 s).flash = false ∧
      (pressN 4 s).green = false) := by
  constructor
  · intro h
    rw [pressN_state N s h, succN_mod N s.state h]
  · intro hs
    obtain ⟨a1, -, -⟩ := press_of_state0 s hs
    obtain ⟨b1, -, -⟩ := press_of_state1 (press s) a1
    obtain ⟨c1, -, -⟩ := press_of_state2 (press (press s)) b1
    obtain ⟨d1, d2, d3⟩ := press_of_state3 (press (press (press s))) c1
    exact ⟨d1, d2, d3⟩

theorem c4_cycle_mod4_witness :
    sysInit.state < 4 ∧ (pressN 5 sysInit).state = succN (5 % 4) sysInit.state :=
  ⟨by decide, (c4_cycle_mod4 sysInit 5).1 (by decide)⟩

/-! ## Claim C2: interleaving of the ISR with read-and-reset -/

theorem mstep_injected_cond (t : Nat) (m : MState) :
    (mstep (MOp.cond t) m).injected = m.injected := by
  simp only [mstep]
  split <;> rfl

theorem mstep_injected_printC (m : MState) :
    (mstep MOp.printC m).injected = m.injected := by
  simp only [mstep]
  split <;> rfl

theorem mstep_injected_reset (m : MState) :
    (mstep MOp.reset m).injected = m.injected := by
  simp only [mstep]
  split <;> rfl

theorem mrun_injected (ops : List MOp) (m : MState) :
    (mrun ops m).injected = m.injected + countIsr ops := by
  induction ops generalizing m with
  | nil => rfl
  | cons o os ih =>
      cases o with
      | isr t =>
          show (mrun os (mstep (MOp.isr t) m)).injected = m.injected + (countIsr os + 1)
          rw [ih]
          show m.injected + 1 + countIsr os = m.injected + (countIsr os + 1)
          omega
      | cond t =>
          show (mrun os (mstep (MOp.cond t) m)).injected = m.injected + countIsr os
          rw [ih, mstep_injected_cond]
      | printC =>
          show (mrun os (mstep MOp.printC m)).injected = m.injected + countIsr os
          rw [ih, mstep_injected_printC]
      | reset =>
          show (mrun os (mstep MOp.reset m)).injected = m.injected + countIsr os
          rw [ih, mstep_injected_reset]

theorem mrun_bal (ops : List MOp) (m : MState) (h : noIsrAtRead ops m = true) :
    bal (mrun ops m) = bal m + countIsr ops := by
  induction ops generalizing m with
  | nil => rfl
  | cons o os ih =>
      simp only [noIsrAtRead, Bool.and_eq_true] at h
      obtain ⟨h1, h2⟩ := h
      cases o with
      | isr t =>
          have hpc : m.pc ≠ 2 := by simpa using h1
          show bal (mrun os (mstep (MOp.isr t) m)) = bal m + countIsr (MOp.isr t :: os)
          rw [ih _ h2]
          have hb : bal (mstep (MOp.isr t) m) = bal m + 1 := by
            simp only [bal, mstep]
            rw [if_neg hpc, if_neg hpc]
            omega
          rw [hb]
          show bal m + 1 + countIsr os = bal m + (countIsr os + 1)
          omega
      | cond t =>
          show bal (mrun os (mstep (MOp.cond t) m)) = bal m + countIsr os
          rw [ih _ h2]
          have hb : bal (mstep (MOp.cond t) m) = bal m := by
            simp only [bal, mstep]
            by_cases hp : m.pc = 0
            · rw [if_pos hp]
              have hn2 : ¬((if m.fc ≠ 0 ∧ DEBOUNCE_TIME < elapsed t m.last_time
                  then 1 else 4) = 2) := by
                split <;> decide
              rw [if_neg hn2, if_neg (by omega : ¬m.pc = 2)]
            · rw [if_neg hp]
          rw [hb]
      | printC =>
          show bal (mrun os (mstep MOp.printC m)) = bal m + countIsr os
          rw [ih _ h2]
          have hb : bal (mstep MOp.printC m) = bal m := by
            simp only [bal, mstep]
            by_cases hp : m.pc = 1
            · rw [if_pos hp]
              rw [if_pos rfl, if_neg (by omega : ¬m.pc = 2), List.sum_append]
              simp
            · rw [if_neg hp]
          rw [hb]
      | reset =>
          show bal (mrun os (mstep MOp.reset m)) = bal m + countIsr os
          rw [ih _ h2]
          have hb : bal (mstep MOp.reset m) = bal m := by
            simp only [bal, mstep]
            by_cases hp : m.pc = 2
            · rw [if_pos hp]
              rw [if_pos hp, if_neg (by decide : ¬(3 : Nat) = 2)]
            · rw [if_neg hp]
          rw [hb]

/-- Claim C2 counterexample: from an idle micro state, the schedule edge,
condition test, print, edge, reset loses the second edge: two ISR
invocations occurred, but the reported total is 1 and the counter ends
at 0 — an increment is lost when the ISR fires between the read and the
reset. -/
theorem c2_counterexample :
    (mrun [MOp.isr 0, MOp.cond 60, MOp.printC, MOp.isr 61, MOp.reset] mInit).reported
        = [1] ∧
    (mrun [MOp.isr 0, MOp.cond 60, MOp.printC, MOp.isr 61, MOp.reset] mInit).fc = 0 ∧
    (mrun [MOp.isr 0, MOp.cond 60, MOp.printC, MOp.isr 61, MOp.reset] mInit).injected
        = 2 ∧
    ((mrun [MOp.isr 0, MOp.cond 60, MOp.printC, MOp.isr 61, MOp.reset] mInit).reported.sum
        + (mrun [MOp.isr 0, MOp.cond 60, MOp.printC, MOp.isr 61, MOp.reset] mInit).fc
      ≠ (mrun [MOp.isr 0, MOp.cond 60, MOp.printC, MOp.isr 61, MOp.reset] mInit).injected) := by
  refine ⟨rfl, rfl, rfl, ?_⟩
  decide

/-- Claim C2 (amended): for every interleaving in which no falling ISR
fires between the loop's read of `fall_count` (the print) and its reset
to 0, the reported totals plus the pending count equal exactly the number
of ISR invocations — no increment is lost or double-counted. -/
theorem c2_exact_count (ops : List MOp) (h : noIsrAtRead ops mInit = true)
    (hend : (mrun ops mInit).pc ≠ 2) :
    (mrun ops mInit).reported.sum + (mrun ops mInit).fc = (mrun ops mInit).injected := by
  have hb := mrun_bal ops mInit h
  have hz : bal mInit = 0 := rfl
  rw [hz, Nat.zero_add] at hb
  have hi := mrun_injected ops mInit
  have hz2 : mInit.injected = 0 := rfl
  rw [hz2, Nat.zero_add] at hi
  rw [hi, ← hb]
  simp only [bal]
  rw [if_neg hend]

theorem c2_exact_count_witness :
    noIsrAtRead [MOp.isr 0, MOp.cond 60, MOp.printC, MOp.reset] mInit = true ∧
    (mrun [MOp.isr 0, MOp.cond 60, MOp.printC, MOp.reset] mInit).pc ≠ 2 ∧
    (mrun [MOp.isr 0, MOp.cond 60, MOp.printC, MOp.reset] mInit).reported.sum
        + (mrun [MOp.isr 0, MOp.cond 60, MOp.printC, MOp.reset] mInit).fc
      = (mrun [MOp.isr 0, MOp.cond 60, MOp.printC, MOp.reset] mInit).injected :=
  ⟨by decide, by decide,
    c2_exact_count [MOp.isr 0, MOp.cond 60, MOp.printC, MOp.reset] (by decide) (by decide)⟩

/-! ## Claim C9: the concrete bounce scenario -/

/-- Claim C9 counterexample: with falling edges at t = 0, 5, 10, 12 ms and
a poll at every millisecond, no Pressed event has been emitted by t = 62
ms — the code requires strictly more than DEBOUNCE_TIME ms since the last
edge, and 62 − 12 = 50 is not > 50. -/
theorem c9_counterexample :
    ((runO (c9ActsUpTo 62) sysInit).2).filter isPressObs = [] := by
  decide

/-- Claim C9 (amended): in the scenario with falling edges at
t = 0, 5, 10, 12 ms and a poll every millisecond, exactly one Pressed
event is emitted; it occurs at t = 63 ms — the first poll at which
strictly more than 50 ms have passed since the last edge — and the
reported count is 4. -/
theorem c9_scenario :
    ((runO c9Acts sysInit).2).filter isPressObs = [Obs.rep 63 (Ev.pressedReport 4)] := by
  decide

/-! ## Trace decomposition lemmas -/

theorem runO_cons_fst (a : Act) (as : List Act) (s : Sys) :
    (runO (a :: as) s).1 = (runO as (doAct a s).1).1 := rfl

theorem runO_cons_snd (a : Act) (as : List Act) (s : Sys) :
    (runO (a :: as) s).2 = (doAct a s).2 ++ (runO as (doAct a s).1).2 := rfl

theorem runO_append_fst (xs ys : List Act) (s : Sys) :
    (runO (xs ++ ys) s).1 = (runO ys (runO xs s).1).1 := by
  induction xs generalizing s with
  | nil => rfl
  | cons a xs ih =>
      rw [List.cons_append, runO_cons_fst, runO_cons_fst]
      exact ih (doAct a s).1

theorem runO_append_snd (xs ys : List Act) (s : Sys) :
    (runO (xs ++ ys) s).2 = (runO xs s).2 ++ (runO ys (runO xs s).1).2 := by
  induction xs generalizing s with
  | nil => rfl
  | cons a xs ih =>
      rw [List.cons_append, runO_cons_snd, runO_cons_snd, ih (doAct a s).1,
        runO_cons_fst, List.append_assoc]

theorem monoFrom_append (t0 : Nat) (xs ys : List Act)
    (h : monoFrom t0 (xs ++ ys) = true) :
    monoFrom t0 xs = true ∧ monoFrom (endTime t0 xs) ys = true := by
  induction xs generalizing t0 with
  | nil => exact ⟨rfl, h⟩
  | cons a xs ih =>
      rw [List.cons_append] at h
      simp only [monoFrom, Bool.and_eq_true, decide_eq_true_eq] at h ⊢
      obtain ⟨h1, h2⟩ := h
      obtain ⟨h3, h4⟩ := ih (timeOf a) h2
      exact ⟨⟨h1, h3⟩, h4⟩

theorem loopStep_rise_count (now : Nat) (pin : Bool) (s : Sys) :
    ((loopStep now pin s).1).rise_count =
      if s.rise_count ≠ 0 ∧ DEBOUNCE_TIME < elapsed now s.last_time then 0
      else s.rise_count := by
  simp only [loopStep, flashService_rise_count, serviceState_rise_count, riseDispatch_rc,
    fallDispatch_rise_count, fallDispatch_last_time]

/-- Along a monotone trace, `last_time` never decreases, stays below the
last action time, and bounds the time of every recorded edge. -/
theorem runO_rec_le (as : List Act) (s : Sys) (t0 : Nat)
    (hm : monoFrom t0 as = true) (hs : s.last_time ≤ t0) :
    s.last_time ≤ ((runO as s).1).last_time ∧
    ((runO as s).1).last_time ≤ endTime t0 as ∧
    (∀ d u, Obs.rcd d u ∈ (runO as s).2 → u ≤ ((runO as s).1).last_time) := by
  induction as generalizing s t0 with
  | nil =>
      refine ⟨le_refl _, hs, ?_⟩
      intro d u hu
      simp [runO] at hu
  | cons a as ih =>
      simp only [monoFrom, Bool.and_eq_true, decide_eq_true_eq] at hm
      obtain ⟨h1, h2⟩ := hm
      rw [runO_cons_fst, runO_cons_snd]
      cases a with
      | fallEdge t =>
          by_cases ha : s.armed = EdgeDir.falling
          · have hstep : doAct (Act.fallEdge t) s =
                (falling t s, [Obs.rcd EdgeDir.falling t]) := by
              simp [doAct, ha]
            rw [hstep]
            obtain ⟨i1, i2, i3⟩ := ih (falling t s) t h2 (le_refl t)
            refine ⟨?_, i2, ?_⟩
            · calc s.last_time ≤ t0 := hs
                _ ≤ t := h1
                _ ≤ ((runO as (falling t s)).1).last_time := i1
            · intro d u hu
              rcases List.mem_append.mp hu with hu | hu
              · simp only [List.mem_singleton] at hu
                injection hu with hd ht
                subst ht
                exact i1
              · exact i3 d u hu
          · have hstep : doAct (Act.fallEdge t) s = (s, []) := by
              simp [doAct, ha]
            rw [hstep]
            obtain ⟨i1, i2, i3⟩ := ih s t h2 (le_trans hs h1)
            refine ⟨i1, i2, ?_⟩
            intro d u hu
            rw [List.nil_append] at hu
            exact i3 d u hu
      | riseEdge t =>
          by_cases ha : s.armed = EdgeDir.rising
          · have hstep : doAct (Act.riseEdge t) s =
                (rising t s, [Obs.rcd EdgeDir.rising t]) := by
              simp [doAct, ha]
            rw [hstep]
            obtain ⟨i1, i2, i3⟩ := ih (rising t s) t h2 (le_refl t)
            refine ⟨?_, i2, ?_⟩
            · calc s.last_time ≤ t0 := hs
                _ ≤ t := h1
                _ ≤ ((runO as (rising t s)).1).last_time := i1
            · intro d u hu
              rcases List.mem_append.mp hu with hu | hu
              · simp only [List.mem_singleton] at hu
                injection hu with hd ht
                subst ht
                exact i1
              · exact i3 d u hu
          · have hstep : doAct (Act.riseEdge t) s = (s, []) := by
              simp [doAct, ha]
            rw [hstep]
            obtain ⟨i1, i2, i3⟩ := ih s t h2 (le_trans hs h1)
            refine ⟨i1, i2, ?_⟩
            intro d u hu
            rw [List.nil_append] at hu
            exact i3 d u hu
      | poll t pin =>
          have hfst : (doAct (Act.poll t pin) s).1 = (loopStep t pin s).1 := rfl
          have hsnd : (doAct (Act.poll t pin) s).2 =
              ((loopStep t pin s).2).map (fun e => Obs.rep t e) := rfl
          rw [hfst, hsnd]
          have hlt : ((loopStep t pin s).1).last_time = s.last_time :=
            loopStep_last_time t pin s
          obtain ⟨i1, i2, i3⟩ := ih (loopStep t pin s).1 t h2
            (by rw [hlt]; exact le_trans hs h1)
          refine ⟨?_, i2, ?_⟩
          · rw [← hlt]; exact i1
          · intro d u hu
            rcases List.mem_append.mp hu with hu | hu
            · exfalso
              rcases List.mem_map.mp hu with ⟨e, -, he⟩
              exact Obs.noConfusion he
            · exact i3 d u hu

/-! ## What an emitted report implies about the pre-poll state -/

theorem pressed_mem_loopStep (t : Nat) (pin : Bool) (s : Sys) (c : Nat)
    (h : Ev.pressedReport c ∈ (loopStep t pin s).2) :
    c = s.fall_count ∧ s.fall_count ≠ 0 ∧ DEBOUNCE_TIME < elapsed t s.last_time := by
  rw [loopStep_events] at h
  rcases List.mem_append.mp h with h | h
  · rw [fallDispatch_events] at h
    by_cases hc : s.fall_count ≠ 0 ∧ DEBOUNCE_TIME < elapsed t s.last_time
    · rw [if_pos hc] at h
      simp only [List.mem_singleton, Ev.pressedReport.injEq] at h
      exact ⟨h, hc.1, hc.2⟩
    · rw [if_neg hc] at h
      simp at h
  · exfalso
    rcases List.mem_append.mp h with h | h
    · rw [riseDispatch_events] at h
      split at h
      · simp at h
      · simp at h
    · revert h
      simp only [serviceState]
      split
      · split <;> simp
      · simp

theorem released_mem_loopStep (t : Nat) (pin : Bool) (s : Sys) (c : Nat)
    (h : Ev.releasedReport c ∈ (loopStep t pin s).2) :
    c = s.rise_count ∧ s.rise_count ≠ 0 ∧ DEBOUNCE_TIME < elapsed t s.last_time := by
  rw [loopStep_events] at h
  rcases List.mem_append.mp h with h | h
  · exfalso
    rw [fallDispatch_events] at h
    split at h
    · simp at h
    · simp at h
  · rcases List.mem_append.mp h with h | h
    · rw [riseDispatch_events, fallDispatch_rise_count, fallDispatch_last_time] at h
      by_cases hc : s.rise_count ≠ 0 ∧ DEBOUNCE_TIME < elapsed t s.last_time
      · rw [if_pos hc] at h
        simp only [List.mem_singleton, Ev.releasedReport.injEq] at h
        exact ⟨h, hc.1, hc.2⟩
      · rw [if_neg hc] at h
        simp at h
    · exfalso
      revert h
      simp only [serviceState]
      split
      · split <;> simp
      · simp

theorem loopStep_fc_after_press (t : Nat) (pin : Bool) (s : Sys) (c : Nat)
    (h : Ev.pressedReport c ∈ (loopStep t pin s).2) :
    ((loopStep t pin s).1).fall_count = 0 := by
  obtain ⟨-, h1, h2⟩ := pressed_mem_loopStep t pin s c h
  rw [loopStep_fall_count, if_pos ⟨h1, h2⟩]

theorem loopStep_rc_after_release (t : Nat) (pin : Bool) (s : Sys) (c : Nat)
    (h : Ev.releasedReport c ∈ (loopStep t pin s).2) :
    ((loopStep t pin s).1).rise_count = 0 := by
  obtain ⟨-, h1, h2⟩ := released_mem_loopStep t pin s c h
  rw [loopStep_rise_count, if_pos ⟨h1, h2⟩]

/-! ## A zero count stays zero until a new edge of that direction -/

theorem loopStep_fc_zero (t : Nat) (pin : Bool) (s : Sys) (h : s.fall_count = 0) :
    ((loopStep t pin s).1).fall_count = 0 := by
  rw [loopStep_fall_count, if_neg (fun hc => hc.1 h)]
  exact h

theorem loopStep_rc_zero (t : Nat) (pin : Bool) (s : Sys) (h : s.rise_count = 0) :
    ((loopStep t pin s).1).rise_count = 0 := by
  rw [loopStep_rise_count, if_neg (fun hc => hc.1 h)]
  exact h

theorem runO_fc_zero (as : List Act) (s : Sys) (h : s.fall_count = 0)
    (hnf : as.all (fun a => !isFallEdge a) = true) :
    ((runO as s).1).fall_count = 0 := by
  induction as generalizing s with
  | nil => exact h
  | cons a as ih =>
      simp only [List.all_cons, Bool.and_eq_true] at hnf
      obtain ⟨h1, h2⟩ := hnf
      rw [runO_cons_fst]
      refine ih (doAct a s).1 ?_ h2
      cases a with
      | fallEdge t => simp [isFallEdge] at h1
      | riseEdge t =>
          simp only [doAct]
          split
          · exact h
          · exact h
      | poll t pin => exact loopStep_fc_zero t pin s h

theorem runO_rc_zero (as : List Act) (s : Sys) (h : s.rise_count = 0)
    (hnr : as.all (fun a => !isRiseEdge a) = true) :
    ((runO as s).1).rise_count = 0 := by
  induction as generalizing s with
  | nil => exact h
  | cons a as ih =>
      simp only [List.all_cons, Bool.and_eq_true] at hnr
      obtain ⟨h1, h2⟩ := hnr
      rw [runO_cons_fst]
      refine ih (doAct a s).1 ?_ h2
      cases a with
      | riseEdge t => simp [isRiseEdge] at h1
      | fallEdge t =>
          simp only [doAct]
          split
          · exact h
          · exact h
      | poll t pin => exact loopStep_rc_zero t pin s h

/-- Claim C5: along any monotone trace from the initial state, a switch
report (Pressed or Released) emitted by a poll at time `t` carries a
count of at least one and satisfies `t − u > DEBOUNCE_TIME` for every
edge recorded before that poll — the event is never emitted before the
settle time has elapsed since the corresponding last edge; and a second
event of the same direction requires at least one new physical edge of
that direction between the two emitting polls. -/
theorem c5_settle_ordering :
    (∀ (p rest : List Act) (t : Nat) (pin : Bool) (c : Nat),
      monoFrom 0 (p ++ Act.poll t pin :: rest) = true →
      (Ev.pressedReport c ∈ (loopStep t pin (runO p sysInit).1).2 ∨
        Ev.releasedReport c ∈ (loopStep t pin (runO p sysInit).1).2) →
      1 ≤ c ∧
        ∀ d u, Obs.rcd d u ∈ (runO p sysInit).2 → DEBOUNCE_TIME < t - u) ∧
    (∀ (p mid : List Act) (t1 t2 : Nat) (pin1 pin2 : Bool) (c : Nat),
      Ev.pressedReport c ∈ (loopStep t1 pin1 (runO p sysInit).1).2 →
      mid.all (fun a => !isFallEdge a) = true →
      ∀ c2, Ev.pressedReport c2 ∉
        (loopStep t2 pin2 (runO (p ++ Act.poll t1 pin1 :: mid) sysInit).1).2) ∧
    (∀ (p mid : List Act) (t1 t2 : Nat) (pin1 pin2 : Bool) (c : Nat),
      Ev.releasedReport c ∈ (loopStep t1 pin1 (runO p sysInit).1).2 →
      mid.all (fun a => !isRiseEdge a) = true →
      ∀ c2, Ev.releasedReport c2 ∉
        (loopStep t2 pin2 (runO (p ++ Act.poll t1 pin1 :: mid) sysInit).1).2) := by
  refine ⟨?_, ?_, ?_⟩
  · intro p rest t pin c hmono hmem
    obtain ⟨hp, hq⟩ := monoFrom_append 0 p _ hmono
    have hle : endTime 0 p ≤ t := by
      simp only [monoFrom, Bool.and_eq_true, decide_eq_true_eq] at hq
      exact hq.1
    obtain ⟨i1, i2, i3⟩ := runO_rec_le p sysInit 0 hp (le_refl 0)
    have hcond : DEBOUNCE_TIME < elapsed t ((runO p sysInit).1).last_time := by
      rcases hmem with h | h
      · exact (pressed_mem_loopStep t pin _ c h).2.2
      · exact (released_mem_loopStep t pin _ c h).2.2
    have hc1 : 1 ≤ c := by
      rcases hmem with h | h
      · obtain ⟨hc, hnz, -⟩ := pressed_mem_loopStep t pin _ c h
        rw [hc]
        exact Nat.pos_of_ne_zero hnz
      · obtain ⟨hc, hnz, -⟩ := released_mem_loopStep t pin _ c h
        rw [hc]
        exact Nat.pos_of_ne_zero hnz
    refine ⟨hc1, ?_⟩
    intro d u hu
    have hu2 : u ≤ ((runO p sysInit).1).last_time := i3 d u hu
    have h5 : DEBOUNCE_TIME < t - ((runO p sysInit).1).last_time :=
      lt_of_lt_of_le hcond (Nat.mod_le _ _)
    exact lt_of_lt_of_le h5 (Nat.sub_le_sub_left hu2 t)
  · intro p mid t1 t2 pin1 pin2 c h1 hnf c2 hmem2
    have hmidst : (runO (p ++ Act.poll t1 pin1 :: mid) sysInit).1
        = (runO mid (doAct (Act.poll t1 pin1) (runO p sysInit).1).1).1 := by
      rw [runO_append_fst, runO_cons_fst]
    have hfc0 : ((doAct (Act.poll t1 pin1) (runO p sysInit).1).1).fall_count = 0 :=
      loopStep_fc_after_press t1 pin1 _ c h1
    have hfc : ((runO (p ++ Act.poll t1 pin1 :: mid) sysInit).1).fall_count = 0 := by
      rw [hmidst]
      exact runO_fc_zero mid _ hfc0 hnf
    obtain ⟨-, hnz, -⟩ := pressed_mem_loopStep t2 pin2 _ c2 hmem2
    exact hnz hfc
  · intro p mid t1 t2 pin1 pin2 c h1 hnr c2 hmem2
    have hmidst : (runO (p ++ Act.poll t1 pin1 :: mid) sysInit).1
        = (runO mid (doAct (Act.poll t1 pin1) (runO p sysInit).1).1).1 := by
      rw [runO_append_fst, runO_cons_fst]
    have hrc0 : ((doAct (Act.poll t1 pin1) (runO p sysInit).1).1).rise_count = 0 :=
      loopStep_rc_after_release t1 pin1 _ c h1
    have hrc : ((runO (p ++ Act.poll t1 pin1 :: mid) sysInit).1).rise_count = 0 := by
      rw [hmidst]
      exact runO_rc_zero mid _ hrc0 hnr
    obtain ⟨-, hnz, -⟩ := released_mem_loopStep t2 pin2 _ c2 hmem2
    exact hnz hrc

theorem c5_settle_ordering_witness :
    monoFrom 0 ([Act.fallEdge 0] ++ Act.poll 60 true :: []) = true ∧
    Ev.pressedReport 1 ∈ (loopStep 60 true (runO [Act.fallEdge 0] sysInit).1).2 ∧
    DEBOUNCE_TIME < 60 - 0 :=
  ⟨by decide, by decide,
    (c5_settle_ordering.1 [Act.fallEdge 0] [] 60 true 1 (by decide)
      (Or.inl (by decide))).2 EdgeDir.falling 0 (by decide)⟩

/-! ## Arming discipline: the unarmed direction's count is zero, and a
nonzero count pins the shared timestamp to that direction's last edge -/

theorem fallDispatch_armed (now : Nat) (pin : Bool) (s : Sys) :
    ((fallDispatch now pin s).1).armed =
      if s.fall_count ≠ 0 ∧ DEBOUNCE_TIME < elapsed now s.last_time then
        (if pin = false then EdgeDir.rising else s.armed)
      else s.armed := by
  by_cases h : s.fall_count ≠ 0 ∧ DEBOUNCE_TIME < elapsed now s.last_time
  · simp only [fallDispatch, if_pos h]
    split <;> rfl
  · simp only [fallDispatch, if_neg h]

theorem riseDispatch_armed (now : Nat) (pin : Bool) (s : Sys) :
    ((riseDispatch now pin s).1).armed =
      if s.rise_count ≠ 0 ∧ DEBOUNCE_TIME < elapsed now s.last_time then
        (if pin = true then EdgeDir.falling else s.armed)
      else s.armed := by
  by_cases h : s.rise_count ≠ 0 ∧ DEBOUNCE_TIME < elapsed now s.last_time
  · simp only [riseDispatch, if_pos h]
    split <;> rfl
  · simp only [riseDispatch, if_neg h]

theorem loopStep_arming_inv (t : Nat) (pin : Bool) (s : Sys)
    (h1 : s.armed = EdgeDir.falling → s.rise_count = 0)
    (h2 : s.armed = EdgeDir.rising → s.fall_count = 0) :
    (((loopStep t pin s).1).armed = EdgeDir.falling →
      ((loopStep t pin s).1).rise_count = 0) ∧
    (((loopStep t pin s).1).armed = EdgeDir.rising →
      ((loopStep t pin s).1).fall_count = 0) ∧
    ((loopStep t pin s).1).last_time = s.last_time ∧
    (((loopStep t pin s).1).fall_count ≠ 0 →
      s.fall_count ≠ 0 ∧ ((loopStep t pin s).1).fall_count = s.fall_count) ∧
    (((loopStep t pin s).1).rise_count ≠ 0 →
      s.rise_count ≠ 0 ∧ ((loopStep t pin s).1).rise_count = s.rise_count) := by
  have hlt : ((loopStep t pin s).1).last_time = s.last_time := loopStep_last_time t pin s
  have hfc := loopStep_fall_count t pin s
  have hrc := loopStep_rise_count t pin s
  have harm : ((loopStep t pin s).1).armed =
      ((riseDispatch t pin (fallDispatch t pin s).1).1).armed := by
    simp only [loopStep, flashService_armed, serviceState_armed]
  rw [riseDispatch_armed, fallDispatch_armed, fallDispatch_rise_count,
    fallDispatch_last_time] at harm
  by_cases cf : s.fall_count ≠ 0 ∧ DEBOUNCE_TIME < elapsed t s.last_time
  · have hrc0 : s.rise_count = 0 := by
      cases harmc : s.armed with
      | falling => exact h1 harmc
      | rising => exact absurd (h2 harmc) cf.1
    have hcr : ¬(s.rise_count ≠ 0 ∧ DEBOUNCE_TIME < elapsed t s.last_time) :=
      fun hc => hc.1 hrc0
    rw [if_pos cf] at hfc
    rw [if_neg hcr] at hrc
    rw [if_neg hcr, if_pos cf] at harm
    refine ⟨?_, ?_, hlt, ?_, ?_⟩
    · intro _
      rw [hrc, hrc0]
    · intro _
      rw [hfc]
    · intro hf
      rw [hfc] at hf
      exact absurd rfl hf
    · intro hr
      rw [hrc, hrc0] at hr
      exact absurd rfl hr
  · rw [if_neg cf] at hfc harm
    by_cases cr : s.rise_count ≠ 0 ∧ DEBOUNCE_TIME < elapsed t s.last_time
    · rw [if_pos cr] at hrc harm
      refine ⟨?_, ?_, hlt, ?_, ?_⟩
      · intro _
        rw [hrc]
      · intro hr
        rw [harm] at hr
        by_cases hp : pin = true
        · rw [if_pos hp] at hr
          exact absurd hr (by decide)
        · rw [if_neg hp] at hr
          rw [hfc]
          exact h2 hr
      · intro hf
        rw [hfc] at hf
        exact ⟨hf, hfc⟩
      · intro hr
        rw [hrc] at hr
        exact absurd rfl hr
    · rw [if_neg cr] at hrc harm
      refine ⟨?_, ?_, hlt, ?_, ?_⟩
      · intro hf
        rw [harm] at hf
        rw [hrc]
        exact h1 hf
      · intro hr
        rw [harm] at hr
        rw [hfc]
        exact h2 hr
      · intro hf
        rw [hfc] at hf
        exact ⟨hf, hfc⟩
      · intro hr
        rw [hrc] at hr
        exact ⟨hr, hrc⟩

theorem lastRecFrom_append (d : EdgeDir) (init : Option Nat) (xs ys : List Obs) :
    lastRecFrom d init (xs ++ ys) = lastRecFrom d (lastRecFrom d init xs) ys := by
  simp [lastRecFrom, List.foldl_append]

theorem lastRecFrom_reps (d : EdgeDir) (init : Option Nat) (t : Nat) (es : List Ev) :
    lastRecFrom d init (es.map (fun e => Obs.rep t e)) = init := by
  induction es generalizing init with
  | nil => rfl
  | cons e es ih => exact ih init

theorem doAct_arming_inv (a : Act) (s : Sys) (lf lr : Option Nat)
    (h1 : s.armed = EdgeDir.falling → s.rise_count = 0)
    (h2 : s.armed = EdgeDir.rising → s.fall_count = 0)
    (h3 : s.fall_count ≠ 0 → lf = some s.last_time)
    (h4 : s.rise_count ≠ 0 → lr = some s.last_time) :
    (((doAct a s).1).armed = EdgeDir.falling → ((doAct a s).1).rise_count = 0) ∧
    (((doAct a s).1).armed = EdgeDir.rising → ((doAct a s).1).fall_count = 0) ∧
    (((doAct a s).1).fall_count ≠ 0 →
      lastRecFrom EdgeDir.falling lf ((doAct a s).2) = some ((doAct a s).1).last_time) ∧
    (((doAct a s).1).rise_count ≠ 0 →
      lastRecFrom EdgeDir.rising lr ((doAct a s).2) = some ((doAct a s).1).last_time) := by
  cases a with
  | fallEdge t =>
      by_cases ha : s.armed = EdgeDir.falling
      · have hstep : doAct (Act.fallEdge t) s =
            (falling t s, [Obs.rcd EdgeDir.falling t]) := by
          simp [doAct, ha]
        rw [hstep]
        refine ⟨?_, ?_, ?_, ?_⟩
        · intro _
          exact h1 ha
        · intro hr
          have : (falling t s).armed = s.armed := rfl
          rw [this, ha] at hr
          exact absurd hr (by decide)
        · intro _
          rfl
        · intro hr
          exact absurd (h1 ha) hr
      · have hstep : doAct (Act.fallEdge t) s = (s, []) := by
          simp [doAct, ha]
        rw [hstep]
        exact ⟨h1, h2, h3, h4⟩
  | riseEdge t =>
      by_cases ha : s.armed = EdgeDir.rising
      · have hstep : doAct (Act.riseEdge t) s =
            (rising t s, [Obs.rcd EdgeDir.rising t]) := by
          simp [doAct, ha]
        rw [hstep]
        refine ⟨?_, ?_, ?_, ?_⟩
        · intro hf
          have : (rising t s).armed = s.armed := rfl
          rw [this, ha] at hf
          exact absurd hf (by decide)
        · intro _
          exact h2 ha
        · intro hf
          exact absurd (h2 ha) hf
        · intro _
          rfl
      · have hstep : doAct (Act.riseEdge t) s = (s, []) := by
          simp [doAct, ha]
        rw [hstep]
        exact ⟨h1, h2, h3, h4⟩
  | poll t pin =>
      have hfst : (doAct (Act.poll t pin) s).1 = (loopStep t pin s).1 := rfl
      have hsnd : (doAct (Act.poll t pin) s).2 =
          ((loopStep t pin s).2).map (fun e => Obs.rep t e) := rfl
      rw [hfst, hsnd, lastRecFrom_reps, lastRecFrom_reps]
      obtain ⟨i1, i2, i3, i4, i5⟩ := loopStep_arming_inv t pin s h1 h2
      refine ⟨i1, i2, ?_, ?_⟩
      · intro hf
        rw [i3]
        exact h3 (i4 hf).1
      · intro hr
        rw [i3]
        exact h4 (i5 hr).1

theorem runO_arming_inv (as : List Act) (s : Sys) (lf lr : Option Nat)
    (h1 : s.armed = EdgeDir.falling → s.rise_count = 0)
    (h2 : s.armed = EdgeDir.rising → s.fall_count = 0)
    (h3 : s.fall_count ≠ 0 → lf = some s.last_time)
    (h4 : s.rise_count ≠ 0 → lr = some s.last_time) :
    (((runO as s).1).armed = EdgeDir.falling → ((runO as s).1).rise_count = 0) ∧
    (((runO as s).1).armed = EdgeDir.rising → ((runO as s).1).fall_count = 0) ∧
    (((runO as s).1).fall_count ≠ 0 →
      lastRecFrom EdgeDir.falling lf ((runO as s).2) = some ((runO as s).1).last_time) ∧
    (((runO as s).1).rise_count ≠ 0 →
      lastRecFrom EdgeDir.rising lr ((runO as s).2) = some ((runO as s).1).last_time) := by
  induction as generalizing s lf lr with
  | nil => exact ⟨h1, h2, h3, h4⟩
  | cons a as ih =>
      rw [runO_cons_fst, runO_cons_snd, lastRecFrom_append, lastRecFrom_append]
      obtain ⟨j1, j2, j3, j4⟩ := doAct_arming_inv a s lf lr h1 h2 h3 h4
      exact ih (doAct a s).1 _ _ j1 j2 j3 j4

/-- Claim C3 counterexample: the two directions do not maintain separate
timestamps — both ISRs write the one shared `last_time`, so an invocation
of `rising()` moves the falling debounce window: a state with one pending
falling edge at t = 0 dispatches Pressed at t = 60, but after `rising()`
at t = 55 the same poll dispatches nothing. -/
theorem c3_counterexample :
    (rising 55 sampleFall).last_time ≠ sampleFall.last_time ∧
    (fallDispatch 60 true sampleFall).2 = [Ev.pressedReport 1] ∧
    (fallDispatch 60 true (rising 55 sampleFall)).2 = [] := by
  exact ⟨by decide, by decide, by decide⟩

/-- Claim C3 (amended): both edge directions share the single `last_time`
written by either ISR; nevertheless, in every execution from the initial
state, whenever a poll emits a Pressed report the shared `last_time`
equals the time of the most recently recorded falling edge (rising edges
are only recorded while the falling count is zero), and symmetrically for
Released and rising edges — so each direction's debounce window is in
effect measured from that direction's own last recorded edge. -/
theorem c3_shared_timestamp :
    (∀ (t : Nat) (s : Sys),
      (falling t s).last_time = t ∧ (rising t s).last_time = t) ∧
    (∀ (p : List Act) (t : Nat) (pin : Bool) (c : Nat),
      Ev.pressedReport c ∈ (loopStep t pin (runO p sysInit).1).2 →
      lastRecTime EdgeDir.falling ((runO p sysInit).2) =
        some (((runO p sysInit).1).last_time)) ∧
    (∀ (p : List Act) (t : Nat) (pin : Bool) (c : Nat),
      Ev.releasedReport c ∈ (loopStep t pin (runO p sysInit).1).2 →
      lastRecTime EdgeDir.rising ((runO p sysInit).2) =
        some (((runO p sysInit).1).last_time)) := by
  refine ⟨fun t s => ⟨rfl, rfl⟩, ?_, ?_⟩
  · intro p t pin c h
    obtain ⟨-, -, i3, -⟩ := runO_arming_inv p sysInit none none
      (fun _ => rfl) (fun _ => rfl)
      (fun hf => absurd rfl hf) (fun hr => absurd rfl hr)
    exact i3 (pressed_mem_loopStep t pin _ c h).2.1
  · intro p t pin c h
    obtain ⟨-, -, -, i4⟩ := runO_arming_inv p sysInit none none
      (fun _ => rfl) (fun _ => rfl)
      (fun hf => absurd rfl hf) (fun hr => absurd rfl hr)
    exact i4 (released_mem_loopStep t pin _ c h).2.1

theorem c3_shared_timestamp_witness :
    Ev.pressedReport 1 ∈ (loopStep 60 true (runO [Act.fallEdge 7] sysInit).1).2 ∧
    lastRecTime EdgeDir.falling ((runO [Act.fallEdge 7] sysInit).2) =
      some (((runO [Act.fallEdge 7] sysInit).1).last_time) :=
  ⟨by decide, c3_shared_timestamp.2.1 [Act.fallEdge 7] 60 true 1 (by decide)⟩

end Events
